import Mathlib

/-!
Verification of the orchestration core of the ASideMission backend.

The development shallowly embeds the two central modules:

* `backend/services/tool_executor.py` — the `ToolExecutor` class: cache key
  generation, memory-cache lookup/store with TTL, the retry loop of
  `_execute_single_tool_with_retry`, the parallel fan-out
  `execute_tools_parallel`, and `clear_cache`.
* `backend/services/orchestrator.py` — the `AgenticOrchestrator` class:
  `_is_trivial_message`, the tool-hop loop `_execute_tools`, the phase driver
  `_execute_phase`, and `process_message`.

Modelling conventions:

* All wall-clock readings (`time.time()`) are natural numbers counted in
  microseconds.  `int(time.time() * 1000)` becomes `t / 1000` (floor division
  to milliseconds).  Durations from the Python source are converted to the
  same unit where they are compared against clock readings; the retry backoff
  `0.1 * (2 ** attempt)` seconds is recorded as `100000 * 2 ^ attempt`
  microseconds.
* Every clock reading the code makes is supplied by the caller as explicit
  observation data, so a theorem quantifies over all schedules.
* The Redis side of the cache is modelled as unavailable
  (`_get_redis_client` returning `None`, its documented fallback), so all
  cache traffic goes through the in-memory dictionary `execution_cache`,
  modelled as an association list.
* `hashlib.md5(...).hexdigest()` is modelled as an arbitrary function
  `digest : String → String`; the only fact about it any statement needs is
  that its output is drawn from the hexadecimal alphabet (`HexOutput`),
  which is true of `hexdigest`.  Concrete witnesses instantiate it with the
  executable hexadecimal byte encoder `hexEncode`.
* Tool argument dictionaries are association lists of JSON scalars; the
  key-sorted `json.dumps(parameters, sort_keys=True)` is `dumpsSorted`.
* Backend results are records with an explicit `success` flag (every tool in
  `backend/tools/__init__.py` returns a dict that carries one) and an opaque
  `payload` string standing for the remaining fields of the dict.
-/

/-- A scalar JSON value, the argument values tools receive. -/
inductive JVal where
  | s (v : String)
  | n (v : Int)
  | b (v : Bool)
  | null
deriving DecidableEq, Repr

/-- A tool-argument dictionary: association list from field name to value. -/
abbrev Params := List (String × JVal)

/-- Render one JSON scalar the way `json.dumps` does. -/
def dumpVal : JVal → String
  | .s v => "\"" ++ v ++ "\""
  | .n v => toString v
  | .b true => "true"
  | .b false => "false"
  | .null => "null"

/-- Insert a keyed entry into a key-sorted list (ordered by `compare` on the
key), keeping earlier entries first on ties, as Python's stable sort does. -/
def insertSorted (p : String × JVal) : List (String × JVal) → List (String × JVal)
  | [] => [p]
  | q :: qs =>
    if compare q.1 p.1 = Ordering.gt then p :: q :: qs
    else q :: insertSorted p qs

/-- Sort an argument dictionary by key, as `sort_keys=True` does. -/
def sortParams : Params → Params
  | [] => []
  | p :: ps => insertSorted p (sortParams ps)

/-- `json.dumps(parameters, sort_keys=True)`: the key-sorted JSON text of the
argument dictionary (`\x7b` / `\x7d` are the brace characters). -/
def dumpsSorted (ps : Params) : String :=
  "\x7b" ++ String.intercalate ", "
    ((sortParams ps).map (fun kv => "\"" ++ kv.1 ++ "\": " ++ dumpVal kv.2))
    ++ "\x7d"

/-- The hexadecimal digit for `n % 16`. -/
def hexChar (n : Nat) : Char :=
  let m := n % 16
  if m < 10 then Char.ofNat (48 + m) else Char.ofNat (87 + m)

/-- An executable stand-in digest with hexadecimal output: each byte of the
input becomes two hex digits.  It plays the role of `md5(...).hexdigest()` in
concrete witnesses; every theorem that depends on the digest only assumes
`HexOutput`, which `hexdigest` satisfies. -/
def hexEncode (s : String) : String :=
  String.mk (s.data.flatMap (fun c => [hexChar (c.toNat / 16), hexChar c.toNat]))

/-- The digest function produces only hexadecimal characters — the one
property of `hashlib.md5(...).hexdigest()` the development relies on. -/
def HexOutput (digest : String → String) : Prop :=
  ∀ s : String, ∀ c ∈ (digest s).data, c ∈ ("0123456789abcdef".data)

/-- `ToolExecutor._generate_cache_key`: digest of
`f"{tool_name}:{sorted_params}"`. -/
def generate_cache_key (digest : String → String) (tool_name : String)
    (parameters : Params) : String :=
  digest (tool_name ++ ":" ++ dumpsSorted parameters)

/-- The result dictionary a tool's `execute` returns: the `success` flag plus
an opaque rendering of the remaining fields. -/
structure BackendResult where
  success : Bool
  /-- Observed execution duration, microseconds (drives `execution_time_ms`). -/
  elapsed_us : Nat
  /-- The remaining fields of the result dict, left opaque. -/
  payload : String
deriving DecidableEq, Repr

/-- Outcome of one backend invocation attempt inside
`_execute_single_tool_with_retry`'s `try` block. -/
inductive Attempt where
  /-- `execute_tool` returned a result dict within the timeout. -/
  | ok (r : BackendResult)
  /-- `execute_tool` raised; the exception's string rendering. -/
  | exn (msg : String)
  /-- `asyncio.wait_for` raised `asyncio.TimeoutError`. -/
  | timedOut
deriving DecidableEq, Repr

/-- The structured result `_execute_single_tool_with_retry` returns to its
caller (a result dict enriched with `execution_time_ms` and `cached`). -/
structure ResultPayload where
  success : Bool
  /-- Opaque remaining fields of the underlying result dict. -/
  payload : String
  /-- The `error` field of the failure payload, when present. -/
  error : Option String
  execution_time_us : Nat
  cached : Bool
deriving DecidableEq, Repr

/-- One `execution_cache` entry: `{"result": ..., "timestamp": ...}`. -/
structure CacheData where
  result : ResultPayload
  timestamp : Nat
deriving DecidableEq, Repr

/-- The mutable state of a `ToolExecutor` instance that the claims touch:
the in-memory `execution_cache` and the `cache_hits` counter. -/
structure ExecState where
  execution_cache : List (String × CacheData)
  cache_hits : Nat
deriving DecidableEq, Repr

/-- The per-instance configuration set in `ToolExecutor.__init__`:
`cache_ttl` (microseconds here; `TOOL_CACHE_TTL` seconds in the source) and
the two per-tool dictionaries, modelled as total functions that already
build in the lookup defaults `self.max_retries.get(tool_name, 1)` and
`self.tool_timeouts.get(tool_name, 5)`. -/
structure ExecCfg where
  cache_ttl : Nat
  /-- `self.max_retries.get(tool_name, 1)`. -/
  max_retries : String → Nat
  /-- `self.tool_timeouts.get(tool_name, 5)`, seconds (only used in the
  timeout error message). -/
  tool_timeouts : String → Nat

/-- The `max_retries` dictionary from `ToolExecutor.__init__` with the
`.get(tool_name, 1)` default applied. -/
def initMaxRetries : String → Nat
  | "shell" => 0
  | "file" => 2
  | "web_search" => 2
  | "browser" => 1
  | "code" => 0
  | "computer" => 2
  | _ => 1

/-- The `tool_timeouts` dictionary from `ToolExecutor.__init__` with the
`.get(tool_name, 5)` default applied (seconds). -/
def initToolTimeouts : String → Nat
  | "shell" => 5
  | "file" => 1
  | "web_search" => 2
  | "browser" => 10
  | "code" => 5
  | "computer" => 1
  | _ => 5

/-- The configuration `ToolExecutor.__init__` builds with the default
`TOOL_CACHE_TTL` of 300 seconds. -/
def initExecCfg : ExecCfg :=
  { cache_ttl := 300000000
    max_retries := initMaxRetries
    tool_timeouts := initToolTimeouts }

/-- A fresh `ToolExecutor`'s mutable state. -/
def initExecState : ExecState :=
  { execution_cache := [], cache_hits := 0 }

/-- Remove the entry stored under `key` (Python `del` on a dict key). -/
def eraseKey (key : String) (cache : List (String × CacheData)) :
    List (String × CacheData) :=
  cache.filter (fun kv => kv.1 ≠ key)

/-- `ToolExecutor._get_cached_result`, memory-cache path (Redis modelled as
unavailable): a non-expired entry is a hit and bumps `cache_hits`; an expired
entry is deleted and misses. -/
def get_cached_result (cfg : ExecCfg) (st : ExecState) (now : Nat)
    (cache_key : String) : Option ResultPayload × ExecState :=
  match st.execution_cache.lookup cache_key with
  | some cached_data =>
    if now - cached_data.timestamp < cfg.cache_ttl then
      (some cached_data.result, { st with cache_hits := st.cache_hits + 1 })
    else
      (none, { st with execution_cache := eraseKey cache_key st.execution_cache })
  | none => (none, st)

/-- `ToolExecutor._cache_result`, memory path: store
`{"result": result, "timestamp": time.time()}` under the key. -/
def cache_result (st : ExecState) (now : Nat) (cache_key : String)
    (result : ResultPayload) : ExecState :=
  { st with execution_cache :=
      (cache_key, { result := result, timestamp := now }) ::
        eraseKey cache_key st.execution_cache }

/-- The string ``str(last_exception)`` for a failed attempt;
`asyncio.TimeoutError` is replaced by
`Exception(f"Tool {tool_name} timed out after {timeout}s")`. -/
def attemptError (tool_name : String) (timeout : Nat) : Attempt → String
  | .exn msg => msg
  | .timedOut => "Tool " ++ tool_name ++ " timed out after " ++ toString timeout ++ "s"
  | .ok _ => ""

/-- What the retry loop of `_execute_single_tool_with_retry` produced:
either the first result dict returned by the backend, or `none` when every
attempt failed; together with how many backend invocations were made and the
backoff sleeps (microseconds) performed between attempts, in order. -/
structure RetryOutcome where
  returned : Option BackendResult
  attempts : Nat
  sleeps : List Nat
  last_error : Option String
deriving Repr

/-- The `for attempt in range(max_retries + 1)` loop.  `attempt` is the index
of the next attempt and `fuel` the number of attempts still allowed
(`fuel = max_retries + 1 - attempt` at every call); `attempt < max_retries`
is `0 < fuel` after consuming this attempt.  `backend attempt` says how the
`attempt`-th invocation of `execute_tool` under `asyncio.wait_for` behaves. -/
def retryLoop (tool_name : String) (timeout : Nat) (backend : Nat → Attempt) :
    (attempt fuel : Nat) → Option String → List Nat → RetryOutcome
  | attempt, 0, last_error, sleeps =>
    { returned := none, attempts := attempt, sleeps := sleeps,
      last_error := last_error }
  | attempt, fuel + 1, last_error, sleeps =>
    match backend attempt with
    | .ok r =>
      { returned := some r, attempts := attempt + 1, sleeps := sleeps,
        last_error := last_error }
    | a =>
      let e := attemptError tool_name timeout a
      let sleeps' := if 0 < fuel then sleeps ++ [100000 * 2 ^ attempt] else sleeps
      retryLoop tool_name timeout backend (attempt + 1) fuel (some e) sleeps'

/-- Everything observable about one `_execute_single_tool_with_retry` call:
the returned payload, the executor state after it, the number of backend
invocations, and the backoff sleeps performed. -/
structure ExecOneTrace where
  result : ResultPayload
  state : ExecState
  attempts : Nat
  sleeps : List Nat
deriving Repr

/-- `ToolExecutor._execute_single_tool_with_retry` (also exposed as
`execute_tool_sync`): cache lookup first; on a hit, return the entry with
`cached = True` and no backend invocation; otherwise run the retry loop,
enrich a returned result dict with `execution_time_ms` and `cached = False`,
cache it when it is successful and the tool's retry budget is nonzero, and
when every attempt failed return the structured failure payload carrying
`str(last_exception)`.  The function is total: no exception propagates. -/
def executeOne (digest : String → String) (cfg : ExecCfg) (st : ExecState)
    (now : Nat) (tool_name : String) (parameters : Params)
    (backend : Nat → Attempt) : ExecOneTrace :=
  let cache_key := generate_cache_key digest tool_name parameters
  match get_cached_result cfg st now cache_key with
  | (some cached_result, st₁) =>
    { result := { cached_result with cached := true }, state := st₁,
      attempts := 0, sleeps := [] }
  | (none, st₁) =>
    let max_retries := cfg.max_retries tool_name
    let timeout := cfg.tool_timeouts tool_name
    let o := retryLoop tool_name timeout backend 0 (max_retries + 1) none []
    match o.returned with
    | some r =>
      let result : ResultPayload :=
        { success := r.success, payload := r.payload, error := none,
          execution_time_us := r.elapsed_us, cached := false }
      let st₂ :=
        if r.success && decide (0 < max_retries) then
          cache_result st₁ now cache_key result
        else st₁
      { result := result, state := st₂, attempts := o.attempts,
        sleeps := o.sleeps }
    | none =>
      { result :=
          { success := false, payload := "", error := some (o.last_error.getD "None"),
            execution_time_us := 0, cached := false },
        state := st₁, attempts := o.attempts, sleeps := o.sleeps }

/-- Python's `str.startswith(pre)`: the character sequence of `pre` is a
prefix of the character sequence of `s`. -/
def pyStartsWith (s pre : String) : Bool :=
  pre.data.isPrefixOf s.data

/-- `ToolExecutor.clear_cache`, memory path: with a tool name, delete the
memory-cache keys that start with `f"{tool_name}:"`; with `none`, clear the
whole memory cache.  (The Redis branch deletes keys matching
`tool_cache:{tool_name}:*` and is modelled as unavailable; it has the same
prefix shape.) -/
def clear_cache (st : ExecState) (tool_name : Option String) : ExecState :=
  match tool_name with
  | some t =>
    { st with execution_cache :=
        st.execution_cache.filter (fun kv => ¬ pyStartsWith kv.1 (t ++ ":")) }
  | none => { st with execution_cache := [] }

/-- One entry of the `tool_calls` list handed to `execute_tools_parallel`:
`{"name": ..., "args": ...}`. -/
structure CallData where
  name : String
  args : Params
deriving DecidableEq, Repr

/-- The value `asyncio.gather(..., return_exceptions=True)` yields for one
task: the task's returned result dict, or the exception it raised captured
as a value. -/
inductive GatherOutcome where
  | value (r : ResultPayload)
  | exn (msg : String)
deriving DecidableEq, Repr

/-- One entry of the list `execute_tools_parallel` returns. -/
structure ProcessedResult where
  name : String
  success : Bool
  /-- The full result dict for a non-exception outcome. -/
  result : Option ResultPayload
  error : Option String
  execution_time_us : Nat
  timestamp : Nat
  cached : Bool
deriving DecidableEq, Repr

/-- The post-processing `execute_tools_parallel` applies to one
`(call, result)` pair of `zip(tool_calls, results)`. -/
def processOne (now : Nat) (call : CallData) : GatherOutcome → ProcessedResult
  | .exn msg =>
    { name := call.name, success := false, result := none, error := some msg,
      execution_time_us := 0, timestamp := now, cached := false }
  | .value r =>
    { name := call.name, success := r.success, result := some r, error := none,
      execution_time_us := r.execution_time_us, timestamp := now,
      cached := r.cached }

/-- `ToolExecutor.execute_tools_parallel`: one task per call, gathered with
`return_exceptions=True` (so `outcomes.get i` is what call `i`'s task
produced, however the tasks interleaved), then post-processed positionally by
`zip(tool_calls, results)`. -/
def execute_tools_parallel (now : Nat) (tool_calls : List CallData)
    (outcomes : List GatherOutcome) : List ProcessedResult :=
  match tool_calls with
  | [] => []
  | _ =>
    (tool_calls.zip outcomes).map (fun p => processOne now p.1 p.2)

/-- An attempt that did not return a result dict (raised or timed out). -/
def Attempt.failed : Attempt → Bool
  | .ok _ => false
  | _ => true

lemma retryLoop_fail_then_ok (tool_name : String) (timeout : Nat)
    (backend : Nat → Attempt) (r : BackendResult) :
    ∀ (k a fuel : Nat) (le : Option String) (acc : List Nat),
      (∀ i, i < k → (backend (a + i)).failed = true) →
      backend (a + k) = .ok r →
      k < fuel →
      (retryLoop tool_name timeout backend a fuel le acc).returned = some r ∧
      (retryLoop tool_name timeout backend a fuel le acc).attempts = a + k + 1 ∧
      (retryLoop tool_name timeout backend a fuel le acc).sleeps =
        acc ++ (List.range k).map (fun i => 100000 * 2 ^ (a + i)) := by
  intro k
  induction k with
  | zero =>
    intro a fuel le acc _ hok hfuel
    obtain ⟨f, rfl⟩ : ∃ f, fuel = f + 1 := ⟨fuel - 1, by omega⟩
    simp only [retryLoop, Nat.add_zero] at hok ⊢
    rw [hok]
    simp
  | succ k ih =>
    intro a fuel le acc hfail hok hfuel
    obtain ⟨f, rfl⟩ : ∃ f, fuel = f + 1 := ⟨fuel - 1, by omega⟩
    have hf0 : (backend a).failed = true := by
      have := hfail 0 (Nat.succ_pos k); simpa using this
    have hfpos : 0 < f := by omega
    have step :
        retryLoop tool_name timeout backend a (f + 1) le acc =
          retryLoop tool_name timeout backend (a + 1) f
            (some (attemptError tool_name timeout (backend a)))
            (acc ++ [100000 * 2 ^ a]) := by
      simp only [retryLoop]
      rcases hb : backend a with r' | m | _
      · rw [hb] at hf0; simp [Attempt.failed] at hf0
      · simp [hfpos]
      · simp [hfpos]
    rw [step]
    have hfail' : ∀ i, i < k → (backend (a + 1 + i)).failed = true := by
      intro i hi
      have := hfail (i + 1) (by omega)
      simpa [Nat.add_assoc, Nat.add_comm 1 i] using this
    have hok' : backend (a + 1 + k) = .ok r := by
      simpa [Nat.add_assoc, Nat.add_comm 1 k] using hok
    obtain ⟨h₁, h₂, h₃⟩ := ih (a + 1) f
      (some (attemptError tool_name timeout (backend a)))
      (acc ++ [100000 * 2 ^ a]) hfail' hok' (by omega)
    refine ⟨h₁, by omega, ?_⟩
    rw [h₃, List.range_succ_eq_map]
    simp only [List.map_cons, List.map_map, List.append_assoc]
    congr 1
    simp only [Nat.add_zero, List.cons_append, List.nil_append]
    congr 1
    apply List.map_congr_left
    intro i _
    simp only [Function.comp_apply]
    congr 2
    omega

lemma retryLoop_all_fail (tool_name : String) (timeout : Nat)
    (backend : Nat → Attempt) :
    ∀ (fuel a : Nat) (le : Option String) (acc : List Nat),
      0 < fuel →
      (∀ i, i < fuel → (backend (a + i)).failed = true) →
      (retryLoop tool_name timeout backend a fuel le acc).returned = none ∧
      (retryLoop tool_name timeout backend a fuel le acc).attempts = a + fuel ∧
      (retryLoop tool_name timeout backend a fuel le acc).last_error =
        some (attemptError tool_name timeout (backend (a + fuel - 1))) := by
  intro fuel
  induction fuel with
  | zero => intro a le acc h; omega
  | succ f ih =>
    intro a le acc _ hfail
    have hf0 : (backend a).failed = true := by
      have := hfail 0 (Nat.succ_pos f); simpa using this
    rcases Nat.eq_zero_or_pos f with hf | hf
    · subst hf
      simp only [retryLoop]
      rcases hb : backend a with r' | m | _
      · rw [hb] at hf0; simp [Attempt.failed] at hf0
      · simp [retryLoop, hb, attemptError]
      · simp [retryLoop, hb, attemptError]
    · have step :
          retryLoop tool_name timeout backend a (f + 1) le acc =
            retryLoop tool_name timeout backend (a + 1) f
              (some (attemptError tool_name timeout (backend a)))
              (acc ++ [100000 * 2 ^ a]) := by
        simp only [retryLoop]
        rcases hb : backend a with r' | m | _
        · rw [hb] at hf0; simp [Attempt.failed] at hf0
        · simp [hf]
        · simp [hf]
      rw [step]
      have hfail' : ∀ i, i < f → (backend (a + 1 + i)).failed = true := by
        intro i hi
        have := hfail (i + 1) (by omega)
        simpa [Nat.add_assoc, Nat.add_comm 1 i] using this
      obtain ⟨h₁, h₂, h₃⟩ := ih (a + 1)
        (some (attemptError tool_name timeout (backend a)))
        (acc ++ [100000 * 2 ^ a]) hf hfail'
      refine ⟨h₁, by omega, ?_⟩
      have hidx : a + 1 + f - 1 = a + (f + 1) - 1 := by omega
      rw [h₃, hidx]

/-- C3: for a tool configured with `max_retries = N` (N ≥ 1) and a backend
that fails (raises or times out) on each of the first N attempts and returns
a successful result on attempt N+1, `_execute_single_tool_with_retry` (on a
cache miss) returns that success after exactly N+1 backend invocations, with
the inter-attempt backoff sleeps `0.1 * 2^attempt` seconds (here microseconds
`100000 * 2^attempt`) — the base delay doubling each attempt. -/
theorem claim_C3_retry_then_success (digest : String → String) (cfg : ExecCfg)
    (st : ExecState) (now : Nat) (tool_name : String) (parameters : Params)
    (backend : Nat → Attempt) (r : BackendResult) (N : Nat)
    (hN : cfg.max_retries tool_name = N) (hN1 : 1 ≤ N)
    (hmiss : st.execution_cache.lookup
      (generate_cache_key digest tool_name parameters) = none)
    (hfail : ∀ i, i < N → (backend i).failed = true)
    (hok : backend N = .ok r) (hr : r.success = true) :
    (executeOne digest cfg st now tool_name parameters backend).result.success = true ∧
    (executeOne digest cfg st now tool_name parameters backend).result.payload = r.payload ∧
    (executeOne digest cfg st now tool_name parameters backend).attempts = N + 1 ∧
    (executeOne digest cfg st now tool_name parameters backend).sleeps =
      (List.range N).map (fun i => 100000 * 2 ^ i) := by
  have hkey : get_cached_result cfg st now
      (generate_cache_key digest tool_name parameters) = (none, st) := by
    simp [get_cached_result, hmiss]
  obtain ⟨h₁, h₂, h₃⟩ := retryLoop_fail_then_ok tool_name
    (cfg.tool_timeouts tool_name) backend r N 0 (cfg.max_retries tool_name + 1)
    none [] (by intro i hi; simpa using hfail i hi) (by simpa using hok)
    (by omega)
  simp only [executeOne, hkey, h₁]
  refine ⟨hr, trivial, by omega, ?_⟩
  rw [h₃]
  simp

/-- The backend behaviour for the C3 witness: raise on the first two
attempts, return a successful result on the third. -/
def witnessBackendC3 : Nat → Attempt :=
  fun i => if i < 2 then .exn "boom" else .ok ⟨true, 3000, "data"⟩

/-- Witness for C3: the `file` tool (`max_retries = 2`) against a backend
failing twice then succeeding, from a fresh executor. -/
theorem claim_C3_retry_then_success_witness :
    (initExecCfg.max_retries "file" = 2) ∧
    (executeOne hexEncode initExecCfg initExecState 0 "file"
        [("operation", JVal.s "read"), ("path", JVal.s "a.txt")]
        witnessBackendC3).attempts = 3 ∧
    (executeOne hexEncode initExecCfg initExecState 0 "file"
        [("operation", JVal.s "read"), ("path", JVal.s "a.txt")]
        witnessBackendC3).sleeps = [100000, 200000] := by
  have h := claim_C3_retry_then_success hexEncode initExecCfg initExecState 0
    "file" [("operation", JVal.s "read"), ("path", JVal.s "a.txt")]
    witnessBackendC3 ⟨true, 3000, "data"⟩ 2 rfl (by omega) rfl
    (by intro i hi; interval_cases i <;> rfl) rfl rfl
  exact ⟨rfl, h.2.2.1, by rw [h.2.2.2]; rfl⟩

/-- C6: when a cache miss is followed by every attempt failing (raising or
timing out), `_execute_single_tool_with_retry` returns the structured failure
payload — `success = False`, carrying `str(last_exception)` of the final
attempt, `execution_time_ms = 0`, `cached = False` — after its full budget of
`max_retries + 1` invocations.  The embedding of the function is total, so no
exception ever propagates past this boundary. -/
theorem claim_C6_failure_payload (digest : String → String) (cfg : ExecCfg)
    (st : ExecState) (now : Nat) (tool_name : String) (parameters : Params)
    (backend : Nat → Attempt)
    (hmiss : st.execution_cache.lookup
      (generate_cache_key digest tool_name parameters) = none)
    (hfail : ∀ i, i < cfg.max_retries tool_name + 1 → (backend i).failed = true) :
    (executeOne digest cfg st now tool_name parameters backend).result.success = false ∧
    (executeOne digest cfg st now tool_name parameters backend).result.error =
      some (attemptError tool_name (cfg.tool_timeouts tool_name)
        (backend (cfg.max_retries tool_name))) ∧
    (executeOne digest cfg st now tool_name parameters backend).result.execution_time_us = 0 ∧
    (executeOne digest cfg st now tool_name parameters backend).result.cached = false ∧
    (executeOne digest cfg st now tool_name parameters backend).attempts =
      cfg.max_retries tool_name + 1 := by
  have hkey : get_cached_result cfg st now
      (generate_cache_key digest tool_name parameters) = (none, st) := by
    simp [get_cached_result, hmiss]
  obtain ⟨h₁, h₂, h₃⟩ := retryLoop_all_fail tool_name
    (cfg.tool_timeouts tool_name) backend (cfg.max_retries tool_name + 1) 0
    none [] (by omega) (by intro i hi; simpa using hfail i hi)
  simp only [executeOne, hkey, h₁]
  refine ⟨trivial, ?_, trivial, trivial, by omega⟩
  rw [h₃]
  simp

/-- Witness for C6: the `web_search` tool (`max_retries = 2`) against a
backend that times out on every attempt, from a fresh executor. -/
theorem claim_C6_failure_payload_witness :
    (executeOne hexEncode initExecCfg initExecState 0 "web_search"
        [("query", JVal.s "gold price")] (fun _ => Attempt.timedOut)).result.success = false ∧
    (executeOne hexEncode initExecCfg initExecState 0 "web_search"
        [("query", JVal.s "gold price")] (fun _ => Attempt.timedOut)).result.error =
      some "Tool web_search timed out after 2s" ∧
    (executeOne hexEncode initExecCfg initExecState 0 "web_search"
        [("query", JVal.s "gold price")] (fun _ => Attempt.timedOut)).attempts = 3 := by
  have h := claim_C6_failure_payload hexEncode initExecCfg initExecState 0
    "web_search" [("query", JVal.s "gold price")] (fun _ => Attempt.timedOut)
    rfl (by intro i _; rfl)
  exact ⟨h.1, by rw [h.2.1]; rfl, h.2.2.2.2⟩

/-- C4: for an idempotent tool (nonzero retry budget), a successful first
call stores its result, and a second call with identical
(tool, key-sorted-normalized arguments) within the cache TTL is served from
the cache: it returns the stored payload with `cached = True` and performs
zero backend invocations. -/
theorem claim_C4_second_call_cached (digest : String → String) (cfg : ExecCfg)
    (st : ExecState) (now₁ now₂ : Nat) (tool_name : String) (p₁ p₂ : Params)
    (backend₁ backend₂ : Nat → Attempt) (r : BackendResult)
    (hidem : 0 < cfg.max_retries tool_name)
    (hnorm : sortParams p₁ = sortParams p₂)
    (hmiss : st.execution_cache.lookup
      (generate_cache_key digest tool_name p₁) = none)
    (hok : backend₁ 0 = .ok r) (hr : r.success = true)
    (httl : now₂ - now₁ < cfg.cache_ttl) :
    (executeOne digest cfg
        (executeOne digest cfg st now₁ tool_name p₁ backend₁).state
        now₂ tool_name p₂ backend₂).result =
      { (executeOne digest cfg st now₁ tool_name p₁ backend₁).result with
          cached := true } ∧
    (executeOne digest cfg
        (executeOne digest cfg st now₁ tool_name p₁ backend₁).state
        now₂ tool_name p₂ backend₂).attempts = 0 ∧
    (executeOne digest cfg
        (executeOne digest cfg st now₁ tool_name p₁ backend₁).state
        now₂ tool_name p₂ backend₂).sleeps = [] := by
  have hkeys : generate_cache_key digest tool_name p₂ =
      generate_cache_key digest tool_name p₁ := by
    unfold generate_cache_key dumpsSorted
    rw [hnorm]
  have hkey₁ : get_cached_result cfg st now₁
      (generate_cache_key digest tool_name p₁) = (none, st) := by
    simp [get_cached_result, hmiss]
  obtain ⟨h₁, h₂, h₃⟩ := retryLoop_fail_then_ok tool_name
    (cfg.tool_timeouts tool_name) backend₁ r 0 0 (cfg.max_retries tool_name + 1)
    none [] (by intro i hi; omega) (by simpa using hok) (by omega)
  have hd : decide (0 < cfg.max_retries tool_name) = true := decide_eq_true hidem
  set t₁ := executeOne digest cfg st now₁ tool_name p₁ backend₁ with ht₁
  have hstate : t₁.state =
      cache_result st now₁ (generate_cache_key digest tool_name p₁) t₁.result := by
    rw [ht₁]
    simp [executeOne, hkey₁, h₁, hr, hd]
  have hget₂ : get_cached_result cfg t₁.state now₂
      (generate_cache_key digest tool_name p₂) =
      (some t₁.result,
        { t₁.state with cache_hits := t₁.state.cache_hits + 1 }) := by
    rw [hkeys, hstate]
    simp [get_cached_result, cache_result, List.lookup, httl]
  simp only [executeOne, hget₂]
  exact ⟨trivial, trivial, trivial⟩

/-- Witness for C4: the `web_search` tool from a fresh executor; the second
call permutes the argument order (`max_results` before `query` vs after),
checking key normalization, and happens 1 second after the first with the
default 300 second TTL. -/
theorem claim_C4_second_call_cached_witness :
    (executeOne hexEncode initExecCfg
        (executeOne hexEncode initExecCfg initExecState 1000000 "web_search"
          [("query", JVal.s "gold"), ("max_results", JVal.n 5)]
          (fun _ => Attempt.ok ⟨true, 5000, "results"⟩)).state
        2000000 "web_search"
        [("max_results", JVal.n 5), ("query", JVal.s "gold")]
        (fun _ => Attempt.ok ⟨true, 5000, "other"⟩)).result.cached = true ∧
    (executeOne hexEncode initExecCfg
        (executeOne hexEncode initExecCfg initExecState 1000000 "web_search"
          [("query", JVal.s "gold"), ("max_results", JVal.n 5)]
          (fun _ => Attempt.ok ⟨true, 5000, "results"⟩)).state
        2000000 "web_search"
        [("max_results", JVal.n 5), ("query", JVal.s "gold")]
        (fun _ => Attempt.ok ⟨true, 5000, "other"⟩)).attempts = 0 := by
  have h := claim_C4_second_call_cached hexEncode initExecCfg initExecState
    1000000 2000000 "web_search"
    [("query", JVal.s "gold"), ("max_results", JVal.n 5)]
    [("max_results", JVal.n 5), ("query", JVal.s "gold")]
    (fun _ => Attempt.ok ⟨true, 5000, "results"⟩)
    (fun _ => Attempt.ok ⟨true, 5000, "other"⟩)
    ⟨true, 5000, "results"⟩ (by decide) (by decide) rfl rfl rfl (by decide)
  exact ⟨by rw [h.1], h.2.1⟩

/-- A zero-retry tool neither reads a useful cache entry nor writes one: on a
true cache miss, one call makes exactly one backend invocation, returns
`cached = False`, and leaves the executor state unchanged. -/
lemma executeOne_zero_retries (digest : String → String) (cfg : ExecCfg)
    (st : ExecState) (now : Nat) (tool_name : String) (parameters : Params)
    (backend : Nat → Attempt)
    (h0 : cfg.max_retries tool_name = 0)
    (hmiss : st.execution_cache.lookup
      (generate_cache_key digest tool_name parameters) = none) :
    (executeOne digest cfg st now tool_name parameters backend).state = st ∧
    (executeOne digest cfg st now tool_name parameters backend).attempts = 1 ∧
    (executeOne digest cfg st now tool_name parameters backend).result.cached = false := by
  have hkey : get_cached_result cfg st now
      (generate_cache_key digest tool_name parameters) = (none, st) := by
    simp [get_cached_result, hmiss]
  simp only [executeOne, hkey, h0]
  rcases hb : backend 0 with r | m | _ <;>
    simp [retryLoop, hb]

/-- C5: for a non-idempotent tool (retry budget zero, e.g. `shell` and
`code`), results are never stored in the cache: starting from a state with no
entry for the key, the first call leaves the state unchanged, and the
repeated identical call again invokes the backend exactly once and is not
served from the cache — whatever either backend invocation does. -/
theorem claim_C5_never_cached (digest : String → String) (cfg : ExecCfg)
    (st : ExecState) (now₁ now₂ : Nat) (tool_name : String) (parameters : Params)
    (backend₁ backend₂ : Nat → Attempt)
    (h0 : cfg.max_retries tool_name = 0)
    (hmiss : st.execution_cache.lookup
      (generate_cache_key digest tool_name parameters) = none) :
    (executeOne digest cfg st now₁ tool_name parameters backend₁).state = st ∧
    (executeOne digest cfg st now₁ tool_name parameters backend₁).attempts = 1 ∧
    (executeOne digest cfg st now₁ tool_name parameters backend₁).result.cached = false ∧
    (executeOne digest cfg
        (executeOne digest cfg st now₁ tool_name parameters backend₁).state
        now₂ tool_name parameters backend₂).attempts = 1 ∧
    (executeOne digest cfg
        (executeOne digest cfg st now₁ tool_name parameters backend₁).state
        now₂ tool_name parameters backend₂).result.cached = false := by
  obtain ⟨hs₁, ha₁, hc₁⟩ := executeOne_zero_retries digest cfg st now₁
    tool_name parameters backend₁ h0 hmiss
  obtain ⟨_, ha₂, hc₂⟩ := executeOne_zero_retries digest cfg st now₂
    tool_name parameters backend₂ h0 hmiss
  rw [hs₁]
  exact ⟨rfl, ha₁, hc₁, ha₂, hc₂⟩

/-- Witness for C5: the `shell` tool (`max_retries = 0`) run twice with the
same command from a fresh executor, succeeding both times. -/
theorem claim_C5_never_cached_witness :
    (initExecCfg.max_retries "shell" = 0) ∧
    (executeOne hexEncode initExecCfg initExecState 1000 "shell"
        [("command", JVal.s "ls")] (fun _ => Attempt.ok ⟨true, 200, "out"⟩)).state =
      initExecState ∧
    (executeOne hexEncode initExecCfg
        (executeOne hexEncode initExecCfg initExecState 1000 "shell"
          [("command", JVal.s "ls")]
          (fun _ => Attempt.ok ⟨true, 200, "out"⟩)).state
        2000 "shell" [("command", JVal.s "ls")]
        (fun _ => Attempt.ok ⟨true, 200, "out2"⟩)).attempts = 1 := by
  have h := claim_C5_never_cached hexEncode initExecCfg initExecState 1000 2000
    "shell" [("command", JVal.s "ls")]
    (fun _ => Attempt.ok ⟨true, 200, "out"⟩)
    (fun _ => Attempt.ok ⟨true, 200, "out2"⟩) rfl rfl
  exact ⟨rfl, h.1, h.2.2.2.1⟩

/-- C2: `execute_tools_parallel` returns one processed result per input call
(same length), with the result at index `i` computed from input call `i` and
its own task's gathered outcome only — positional correlation independent of
completion order — and a call whose task raised surfaces at its own position
as a `success = False` entry carrying the exception text, leaving every other
position's value untouched. -/
theorem claim_C2_parallel_positional (now : Nat) (tool_calls : List CallData)
    (outcomes : List GatherOutcome)
    (hlen : outcomes.length = tool_calls.length) :
    (execute_tools_parallel now tool_calls outcomes).length = tool_calls.length ∧
    (∀ i (h₁ : i < tool_calls.length) (h₂ : i < outcomes.length)
        (h₃ : i < (execute_tools_parallel now tool_calls outcomes).length),
      (execute_tools_parallel now tool_calls outcomes)[i] =
        processOne now tool_calls[i] outcomes[i]) ∧
    (∀ i (h₁ : i < tool_calls.length) (h₂ : i < outcomes.length)
        (h₃ : i < (execute_tools_parallel now tool_calls outcomes).length)
        (msg : String), outcomes[i] = .exn msg →
      ((execute_tools_parallel now tool_calls outcomes)[i]).success = false ∧
      ((execute_tools_parallel now tool_calls outcomes)[i]).error = some msg) := by
  match tool_calls with
  | [] =>
    refine ⟨rfl, ?_, ?_⟩ <;> intro i h₁ <;> exact absurd h₁ (Nat.not_lt_zero i)
  | c :: cs =>
    have hunfold : execute_tools_parallel now (c :: cs) outcomes =
        ((c :: cs).zip outcomes).map (fun p => processOne now p.1 p.2) := rfl
    have hlen' : (execute_tools_parallel now (c :: cs) outcomes).length =
        (c :: cs).length := by
      rw [hunfold]
      simp [List.length_zip, hlen]
    have hidx : ∀ i (h₁ : i < (c :: cs).length) (h₂ : i < outcomes.length)
        (h₃ : i < (execute_tools_parallel now (c :: cs) outcomes).length),
        (execute_tools_parallel now (c :: cs) outcomes)[i] =
          processOne now (c :: cs)[i] outcomes[i] := by
      intro i h₁ h₂ h₃
      have h₄ : i < (((c :: cs).zip outcomes).map
          (fun p => processOne now p.1 p.2)).length := by rw [← hunfold]; exact h₃
      calc (execute_tools_parallel now (c :: cs) outcomes)[i]
          = (((c :: cs).zip outcomes).map (fun p => processOne now p.1 p.2))[i] := by
            congr 1
        _ = processOne now (c :: cs)[i] outcomes[i] := by
            simp [List.getElem_zip]
    refine ⟨hlen', hidx, ?_⟩
    intro i h₁ h₂ h₃ msg hexn
    rw [hidx i h₁ h₂ h₃, hexn]
    exact ⟨rfl, rfl⟩

/-- Witness for C2: a three-call batch whose middle task raised; lengths
match, position 1 is the failure entry, positions 0 and 2 are their own
tasks' values. -/
theorem claim_C2_parallel_positional_witness :
    ([GatherOutcome.value ⟨true, "a", none, 10, false⟩,
      GatherOutcome.exn "division by zero",
      GatherOutcome.value ⟨true, "c", none, 30, true⟩].length =
      [CallData.mk "web_search" [], CallData.mk "file" [],
        CallData.mk "web_search" []].length) ∧
    (execute_tools_parallel 7
        [CallData.mk "web_search" [], CallData.mk "file" [],
          CallData.mk "web_search" []]
        [GatherOutcome.value ⟨true, "a", none, 10, false⟩,
          GatherOutcome.exn "division by zero",
          GatherOutcome.value ⟨true, "c", none, 30, true⟩]).length = 3 ∧
    ((execute_tools_parallel 7
        [CallData.mk "web_search" [], CallData.mk "file" [],
          CallData.mk "web_search" []]
        [GatherOutcome.value ⟨true, "a", none, 10, false⟩,
          GatherOutcome.exn "division by zero",
          GatherOutcome.value ⟨true, "c", none, 30, true⟩]).get ⟨1, by decide⟩).success
      = false := by
  have h := claim_C2_parallel_positional 7
    [CallData.mk "web_search" [], CallData.mk "file" [],
      CallData.mk "web_search" []]
    [GatherOutcome.value ⟨true, "a", none, 10, false⟩,
      GatherOutcome.exn "division by zero",
      GatherOutcome.value ⟨true, "c", none, 30, true⟩] rfl
  refine ⟨rfl, h.1, ?_⟩
  exact (h.2.2 1 (by decide) (by decide) (by rw [h.1]; decide)
    "division by zero" rfl).1

set_option maxRecDepth 8000 in
/-- C10: refuted by the code — `clear_cache(tool_name)` removes the
memory-cache keys that start with `f"{tool_name}:"`, but every stored key is
a hex digest of `f"{tool_name}:{sorted_params}"` (`_generate_cache_key`), so
no stored key ever starts with that prefix and the per-tool clear removes
nothing.  Concretely: a successful `web_search` call stores one entry;
`clear_cache("web_search")` leaves the state unchanged; the next identical
call is still served from the cache (`cached = True`, zero backend
invocations) instead of re-invoking the backend. -/
theorem claim_C10_clear_cache_noop :
    (executeOne hexEncode initExecCfg initExecState 1000000 "web_search"
        [("query", JVal.s "gold")]
        (fun _ => Attempt.ok ⟨true, 5000, "results"⟩)).state.execution_cache.length = 1 ∧
    clear_cache
        (executeOne hexEncode initExecCfg initExecState 1000000 "web_search"
          [("query", JVal.s "gold")]
          (fun _ => Attempt.ok ⟨true, 5000, "results"⟩)).state
        (some "web_search") =
      (executeOne hexEncode initExecCfg initExecState 1000000 "web_search"
        [("query", JVal.s "gold")]
        (fun _ => Attempt.ok ⟨true, 5000, "results"⟩)).state ∧
    (executeOne hexEncode initExecCfg
        (clear_cache
          (executeOne hexEncode initExecCfg initExecState 1000000 "web_search"
            [("query", JVal.s "gold")]
            (fun _ => Attempt.ok ⟨true, 5000, "results"⟩)).state
          (some "web_search"))
        2000000 "web_search" [("query", JVal.s "gold")]
        (fun _ => Attempt.ok ⟨true, 5000, "fresh"⟩)).result.cached = true ∧
    (executeOne hexEncode initExecCfg
        (clear_cache
          (executeOne hexEncode initExecCfg initExecState 1000000 "web_search"
            [("query", JVal.s "gold")]
            (fun _ => Attempt.ok ⟨true, 5000, "results"⟩)).state
          (some "web_search"))
        2000000 "web_search" [("query", JVal.s "gold")]
        (fun _ => Attempt.ok ⟨true, 5000, "fresh"⟩)).attempts = 0 := by
  decide

/-- Python's `str.lower()` over the character sequence. -/
def pyLower (s : String) : String :=
  String.mk (s.data.map Char.toLower)

/-- Python's `str.strip()`: drop leading and trailing whitespace. -/
def pyStrip (s : String) : String :=
  String.mk (((s.data.dropWhile Char.isWhitespace).reverse.dropWhile
    Char.isWhitespace).reverse)

/-- Helper for `str.split()`: accumulate the current word (reversed) while
scanning the character list. -/
def pySplitAux : List Char → List Char → List String
  | [], acc => if acc.isEmpty then [] else [String.mk acc.reverse]
  | c :: cs, acc =>
    if c.isWhitespace then
      if acc.isEmpty then pySplitAux cs []
      else String.mk acc.reverse :: pySplitAux cs []
    else pySplitAux cs (c :: acc)

/-- Python's `str.split()` with no argument: split on whitespace runs,
dropping empty pieces. -/
def pySplit (s : String) : List String :=
  pySplitAux s.data []

/-- The `trivial_patterns` list of `AgenticOrchestrator._is_trivial_message`. -/
def trivial_patterns : List String :=
  ["hi", "hello", "hey", "good morning", "good afternoon", "good evening",
   "thanks", "thank you", "bye", "goodbye", "see you",
   "yes", "no", "ok", "okay", "sure", "alright",
   "what\x27s your name", "who are you", "what can you do",
   "help", "how are you", "how do you work"]

/-- The question-opener tuple of `_is_trivial_message`'s second check. -/
def trivial_starts : List String :=
  ["what is", "what\x27s", "how to", "when", "where", "why"]

/-- `AgenticOrchestrator._is_trivial_message`: exact trivial-pattern match or
at most 3 words; or a simple question opener with at most 8 words. -/
def is_trivial_message (message : String) : Bool :=
  let message_lower := pyStrip (pyLower message)
  if trivial_patterns.contains message_lower ||
      decide ((pySplit message).length ≤ 3) then
    true
  else if trivial_starts.any (fun p => pyStartsWith message_lower p) &&
      decide ((pySplit message).length ≤ 8) then
    true
  else
    false

/-- `PhaseType` from `backend/models/agent.py`. -/
inductive Phase where
  | plan
  | analyze
  | execute
  | deliver
deriving DecidableEq, Repr

/-- The serialized `PhaseType` value (`phase.value` in the source). -/
def Phase.str : Phase → String
  | .plan => "plan"
  | .analyze => "analyze"
  | .execute => "execute"
  | .deliver => "deliver"

/-- The event stream items of `backend/models/agent.py`, with `PhaseEvent`
split into its `start`/`end` statuses.  `toolResult`'s `result` field is the
attached result dict when the executor returned one, `none` standing for the
`\x7b"error": str(e)\x7d` dict of the orchestrator's exception branch. -/
inductive Event where
  | phaseStart (phase : Phase) (ts : Nat)
  | phaseEnd (phase : Phase) (ts : Nat)
  | toolCall (name : String) (args : Params) (id : String) (ts : Nat)
  | toolResult (id : String) (name : String) (success : Bool)
      (result : Option ResultPayload) (cached : Bool) (ts : Nat)
  | text (content : String) (ts : Nat)
  | deliver (artifactCount : Nat) (summary : String) (ts : Nat)
  | error (content : String) (ts : Nat)
deriving DecidableEq, Repr

/-- The `OrchestratorConfig` fields the orchestration loop reads
(`max_execution_time` in microseconds here; `12.0` seconds default). -/
structure OrchConfig where
  max_tool_hops : Nat
  max_execution_time : Nat
deriving DecidableEq, Repr

/-- The default `OrchestratorConfig` (`max_tool_hops = 3`,
`max_execution_time = 12.0 s`). -/
def defaultOrchConfig : OrchConfig :=
  { max_tool_hops := 3, max_execution_time := 12000000 }

/-- How one `execute_tool_sync` call inside the orchestrator's `try` behaves:
it returns (running the executor against the given backend behaviour), or it
raises (the orchestrator's `except` branch). -/
inductive ToolExecBehavior where
  | runs (backend : Nat → Attempt)
  | raises (msg : String)

/-- The clock readings and executor behaviour one iteration of the
`_execute_tools` loop observes, in source order: the budget check, the
`tool_call_id` reading, the `ToolCallEvent` timestamp, the executor-internal
instant, and the `ToolResultEvent` timestamp. -/
structure IterObs where
  tCheck : Nat
  tId : Nat
  tCall : Nat
  tNow : Nat
  behavior : ToolExecBehavior
  tRes : Nat

/-- `tool_call_id = f"tool_{int(time.time() * 1000)}"` for a reading of
`tId` microseconds. -/
def toolCallId (tId : Nat) : String :=
  "tool_" ++ toString (tId / 1000)

/-- The `for tool_call_data in response["tool_calls"]` loop of
`AgenticOrchestrator._execute_tools`: break once `tool_hops` reaches
`max_tool_hops` or the elapsed time exceeds `max_execution_time`; otherwise
emit a `ToolCall` event, run the executor (emitting its `ToolResult`), or on
an executor exception emit a failed `ToolResult`, and continue. -/
def executeToolsLoop (digest : String → String) (ecfg : ExecCfg)
    (ocfg : OrchConfig) (start_time : Nat) :
    List CallData → List IterObs → Nat → ExecState → List Event × ExecState
  | [], _, _, st => ([], st)
  | _ :: _, [], _, st => ([], st)
  | c :: cs, o :: os, tool_hops, st =>
    if ocfg.max_tool_hops ≤ tool_hops then ([], st)
    else if start_time + ocfg.max_execution_time < o.tCheck then ([], st)
    else
      let id := toolCallId o.tId
      let step : List Event × ExecState :=
        match o.behavior with
        | .runs backend =>
          let tr := executeOne digest ecfg st o.tNow c.name c.args backend
          ([Event.toolResult id c.name tr.result.success (some tr.result)
              tr.result.cached o.tRes], tr.state)
        | .raises _ =>
          ([Event.toolResult id c.name false none false o.tRes], st)
      let rest := executeToolsLoop digest ecfg ocfg start_time cs os
        (tool_hops + 1) step.2
      (Event.toolCall c.name c.args id o.tCall :: step.1 ++ rest.1, rest.2)

/-- `AgenticOrchestrator._execute_tools`: ask the model for tool calls
(`chat_with_tools_sync`, which may raise — propagated to the phase boundary)
and run the hop loop over whatever list it returned (an absent or empty
`tool_calls` list runs zero hops). -/
def executeToolsBody (digest : String → String) (ecfg : ExecCfg)
    (ocfg : OrchConfig) (start_time : Nat)
    (chat : Except String (List CallData)) (iters : List IterObs)
    (st : ExecState) : List Event × ExecState × Option String :=
  match chat with
  | .error msg => ([], st, some msg)
  | .ok tool_calls =>
    let r := executeToolsLoop digest ecfg ocfg start_time tool_calls iters 0 st
    (r.1, r.2, none)

/-- The clock readings one `_execute_phase` call plus the following
`process_message` budget check observe: phase start, body event, body error
event, phase end, the budget check, and the timeout error event. -/
structure PhaseTimes where
  tStart : Nat
  tBody : Nat
  tExn : Nat
  tEnd : Nat
  tCheck : Nat
  tCheckErr : Nat
deriving DecidableEq, Repr

/-- Everything one agentic turn observes from the model, the executor
backends and the clock, phase by phase. -/
structure TurnObs where
  planT : PhaseTimes
  planLLM : Except String String
  analyzeT : PhaseTimes
  analyzeLLM : Except String String
  executeT : PhaseTimes
  execChat : Except String (List CallData)
  execStart : Nat
  execIters : List IterObs
  deliverT : PhaseTimes
  deliverLLM : Except String String

/-- The `PhaseTimes` record a phase reads. -/
def phaseTimes (obs : TurnObs) : Phase → PhaseTimes
  | .plan => obs.planT
  | .analyze => obs.analyzeT
  | .execute => obs.executeT
  | .deliver => obs.deliverT

/-- `AgenticOrchestrator._execute_phase`: emit `Phase{start}`, run the
phase's body (one `chat_simple` call yielding a `Text` event for
plan/analyze/deliver, the tool loop for execute; `_get_created_artifacts`
always returns `[]` in the source, so the `DeliverEvent` branch never fires),
convert a body exception into an `Error` event at the phase boundary, and
emit `Phase{end}`. -/
def runPhase (digest : String → String) (ecfg : ExecCfg) (ocfg : OrchConfig)
    (obs : TurnObs) (st : ExecState) (phase : Phase) :
    List Event × ExecState :=
  let t := phaseTimes obs phase
  let body : List Event × ExecState × Option String :=
    match phase with
    | .plan =>
      match obs.planLLM with
      | .ok response =>
        ([Event.text ("📋 **Planning Phase**\n\n" ++ response) t.tBody], st, none)
      | .error m => ([], st, some m)
    | .analyze =>
      match obs.analyzeLLM with
      | .ok response =>
        ([Event.text ("🔍 **Analysis Phase**\n\n" ++ response) t.tBody], st, none)
      | .error m => ([], st, some m)
    | .execute =>
      executeToolsBody digest ecfg ocfg obs.execStart obs.execChat
        obs.execIters st
    | .deliver =>
      match obs.deliverLLM with
      | .ok response =>
        let artifacts : List Unit := []
        ([Event.text ("📦 **Delivery Phase**\n\n" ++ response) t.tBody] ++
          (if artifacts.isEmpty then [] else
            [Event.deliver artifacts.length
              ("Created " ++ toString artifacts.length ++
                " file(s) with research results") t.tBody]), st, none)
      | .error m => ([], st, some m)
  (Event.phaseStart phase t.tStart ::
    body.1 ++
    (match body.2.2 with
     | some m =>
       [Event.error ("Error in " ++ phase.str ++ " phase: " ++ m) t.tExn]
     | none => []) ++
    [Event.phaseEnd phase t.tEnd],
   body.2.1)

/-- The phase loop of `process_message`'s agentic path: run each phase in
order; after each phase, if the elapsed wall-clock exceeds
`max_execution_time`, emit the timeout `Error` event and stop. -/
def phaseLoop (digest : String → String) (ecfg : ExecCfg) (ocfg : OrchConfig)
    (obs : TurnObs) (turn_start : Nat) :
    List Phase → ExecState → List Event × ExecState
  | [], st => ([], st)
  | p :: ps, st =>
    let r := runPhase digest ecfg ocfg obs st p
    let t := phaseTimes obs p
    if turn_start + ocfg.max_execution_time < t.tCheck then
      (r.1 ++ [Event.error "Execution timeout reached" t.tCheckErr], r.2)
    else
      let rest := phaseLoop digest ecfg ocfg obs turn_start ps r.2
      (r.1 ++ rest.1, rest.2)

/-- The fixed phase order of the agentic path. -/
def agentPhases : List Phase :=
  [Phase.plan, Phase.analyze, Phase.execute, Phase.deliver]

/-- `AgenticOrchestrator.process_message`: route a trivial message to the
instant path (one `chat_simple` call and one `Text` event; an exception there
escapes the generator, recorded in the third component), everything else to
the phased agentic path. -/
def process_message (digest : String → String) (ecfg : ExecCfg)
    (ocfg : OrchConfig) (message : String) (st : ExecState) (turn_start : Nat)
    (instantLLM : Except String String) (tInstant : Nat) (obs : TurnObs) :
    List Event × ExecState × Option String :=
  if is_trivial_message message then
    match instantLLM with
    | .ok response => ([Event.text response tInstant], st, none)
    | .error m => ([], st, some m)
  else
    let r := phaseLoop digest ecfg ocfg obs turn_start agentPhases st
    (r.1, r.2, none)

/-- Recognizer for `ToolCall` events. -/
def Event.isToolCall : Event → Bool
  | .toolCall _ _ _ _ => true
  | _ => false

/-- Recognizer for `ToolResult` events. -/
def Event.isToolResult : Event → Bool
  | .toolResult _ _ _ _ _ _ => true
  | _ => false

/-- Recognizer for `Text` events. -/
def Event.isText : Event → Bool
  | .text _ _ => true
  | _ => false

/-- Recognizer for `Error` events. -/
def Event.isError : Event → Bool
  | .error _ _ => true
  | _ => false

/-- The ids of the `ToolCall` events of a stream, in order. -/
def toolCallIds (evs : List Event) : List String :=
  evs.filterMap (fun e => match e with
    | .toolCall _ _ id _ => some id
    | _ => none)

/-- The tool events of a stream reduced to (is-a-call, id) signatures: calls
map to `(true, id)`, results to `(false, id)`, everything else is dropped. -/
def toolEvents (evs : List Event) : List (Bool × String) :=
  evs.filterMap (fun e => match e with
    | .toolCall _ _ id _ => some (true, id)
    | .toolResult id _ _ _ _ _ => some (false, id)
    | _ => none)

/-- C9: a trivial message routes to the instant path: one `chat_simple` call
whose reply becomes the single event of the stream — exactly one `Text`
event, no `ToolCall` and no `ToolResult` events. -/
theorem claim_C9_instant_single_text (digest : String → String)
    (ecfg : ExecCfg) (ocfg : OrchConfig) (message : String) (st : ExecState)
    (turn_start : Nat) (response : String) (tInstant : Nat) (obs : TurnObs)
    (htriv : is_trivial_message message = true) :
    (process_message digest ecfg ocfg message st turn_start
      (.ok response) tInstant obs).1 = [Event.text response tInstant] ∧
    ((process_message digest ecfg ocfg message st turn_start
      (.ok response) tInstant obs).1.countP Event.isText = 1 ∧
    (process_message digest ecfg ocfg message st turn_start
      (.ok response) tInstant obs).1.countP Event.isToolCall = 0 ∧
    (process_message digest ecfg ocfg message st turn_start
      (.ok response) tInstant obs).1.countP Event.isToolResult = 0) := by
  have he : (process_message digest ecfg ocfg message st turn_start
      (.ok response) tInstant obs).1 = [Event.text response tInstant] := by
    simp [process_message, htriv]
  refine ⟨he, ?_, ?_, ?_⟩ <;> rw [he] <;> rfl

/-- A turn-observation record for witnesses that never reach the agentic
path. -/
def emptyTurnObs : TurnObs :=
  { planT := ⟨0, 0, 0, 0, 0, 0⟩, planLLM := .ok ""
    analyzeT := ⟨0, 0, 0, 0, 0, 0⟩, analyzeLLM := .ok ""
    executeT := ⟨0, 0, 0, 0, 0, 0⟩, execChat := .ok []
    execStart := 0, execIters := []
    deliverT := ⟨0, 0, 0, 0, 0, 0⟩, deliverLLM := .ok "" }

/-- Witness for C9: the message `"hi"` is trivial and produces exactly the
single `Text` event of the instant reply. -/
theorem claim_C9_instant_single_text_witness :
    is_trivial_message "hi" = true ∧
    (process_message hexEncode initExecCfg defaultOrchConfig "hi"
      initExecState 0 (.ok "Hello! How can I help?") 5 emptyTurnObs).1 =
      [Event.text "Hello! How can I help?" 5] := by
  have htriv : is_trivial_message "hi" = true := by decide
  exact ⟨htriv, (claim_C9_instant_single_text hexEncode initExecCfg
    defaultOrchConfig "hi" initExecState 0 "Hello! How can I help?" 5
    emptyTurnObs htriv).1⟩

lemma executeToolsLoop_ids_sublist (digest : String → String) (ecfg : ExecCfg)
    (ocfg : OrchConfig) (start_time : Nat) :
    ∀ (calls : List CallData) (iters : List IterObs) (hops : Nat)
      (st : ExecState),
      List.Sublist
        (toolCallIds
          (executeToolsLoop digest ecfg ocfg start_time calls iters hops st).1)
        (iters.map (fun o => toolCallId o.tId)) := by
  intro calls
  induction calls with
  | nil => intro iters hops st; simp [executeToolsLoop, toolCallIds]
  | cons c cs ih =>
    intro iters hops st
    match iters with
    | [] => simp [executeToolsLoop, toolCallIds]
    | o :: os =>
      by_cases h₁ : ocfg.max_tool_hops ≤ hops
      · simp [executeToolsLoop, h₁, toolCallIds]
      · by_cases h₂ : start_time + ocfg.max_execution_time < o.tCheck
        · simp [executeToolsLoop, h₁, h₂, toolCallIds]
        · rcases hb : o.behavior with backend | msg <;>
            · simp only [executeToolsLoop, h₁, h₂, if_false, if_neg,
                not_false_iff, hb, List.map_cons]
              simp only [toolCallIds, List.filterMap_cons, List.filterMap_append]
              exact List.Sublist.cons₂ _ (ih os (hops + 1) _)

lemma executeToolsLoop_blocks (digest : String → String) (ecfg : ExecCfg)
    (ocfg : OrchConfig) (start_time : Nat) :
    ∀ (calls : List CallData) (iters : List IterObs) (hops : Nat)
      (st : ExecState),
      toolEvents
        (executeToolsLoop digest ecfg ocfg start_time calls iters hops st).1 =
        (toolCallIds
          (executeToolsLoop digest ecfg ocfg start_time calls iters hops st).1).flatMap
          (fun i => [(true, i), (false, i)]) := by
  simp only [toolEvents, toolCallIds]
  intro calls
  induction calls with
  | nil => intro iters hops st; simp [executeToolsLoop]
  | cons c cs ih =>
    intro iters hops st
    match iters with
    | [] => simp [executeToolsLoop]
    | o :: os =>
      by_cases h₁ : ocfg.max_tool_hops ≤ hops
      · simp [executeToolsLoop, h₁]
      · by_cases h₂ : start_time + ocfg.max_execution_time < o.tCheck
        · simp [executeToolsLoop, h₁, h₂]
        · rcases hb : o.behavior with backend | msg <;>
            · simp only [executeToolsLoop, h₁, h₂, if_false, if_neg,
                not_false_iff, hb]
              simp only [List.filterMap_cons, List.filterMap_append,
                List.flatMap_cons, List.nil_append, List.cons_append]
              rw [ih os (hops + 1) _]

/-- C1 (amended): within one `_execute_tools` hop loop — the only source of
tool events in a turn — the tool events always decompose into adjacent
`(ToolCall id, ToolResult id)` blocks: every emitted `ToolCall` is
immediately followed by its `ToolResult` with the same id (success or
failure, also when the executor raises).  When the millisecond clock readings
backing the ids are pairwise distinct, the ids are also unique in the turn,
so each emitted `ToolCall` id has exactly one `ToolResult` with that id.  (As
stated in the spec the claim fails: ids are derived from the wall clock at
millisecond resolution, so two calls in the same millisecond share an id —
see the counterexample.) -/
theorem claim_C1_call_result_pairing (digest : String → String)
    (ecfg : ExecCfg) (ocfg : OrchConfig) (start_time : Nat)
    (calls : List CallData) (iters : List IterObs) (hops : Nat)
    (st : ExecState)
    (hids : (iters.map (fun o => toolCallId o.tId)).Nodup) :
    (toolCallIds
      (executeToolsLoop digest ecfg ocfg start_time calls iters hops st).1).Nodup ∧
    toolEvents
      (executeToolsLoop digest ecfg ocfg start_time calls iters hops st).1 =
      (toolCallIds
        (executeToolsLoop digest ecfg ocfg start_time calls iters hops st).1).flatMap
        (fun i => [(true, i), (false, i)]) :=
  ⟨(executeToolsLoop_ids_sublist digest ecfg ocfg start_time calls iters hops
      st).nodup hids,
   executeToolsLoop_blocks digest ecfg ocfg start_time calls iters hops st⟩

/-- Witness for C1 (amended): two calls at distinct millisecond readings
(5000 ms and 6000 ms), the second of which raises, still yield nodup ids. -/
theorem claim_C1_call_result_pairing_witness :
    (([⟨100, 5000500, 101, 102, .runs (fun _ => .ok ⟨true, 1000, "r1"⟩), 103⟩,
       ⟨200, 6000900, 201, 202, .raises "cancelled", 203⟩] :
        List IterObs).map (fun o => toolCallId o.tId)).Nodup ∧
    (toolCallIds
      (executeToolsLoop hexEncode initExecCfg defaultOrchConfig 0
        [⟨"web_search", [("query", JVal.s "a")]⟩,
         ⟨"file", [("operation", JVal.s "read")]⟩]
        [⟨100, 5000500, 101, 102, .runs (fun _ => .ok ⟨true, 1000, "r1"⟩), 103⟩,
         ⟨200, 6000900, 201, 202, .raises "cancelled", 203⟩]
        0 initExecState).1).Nodup := by
  have hids : (([⟨100, 5000500, 101, 102,
        .runs (fun _ => .ok ⟨true, 1000, "r1"⟩), 103⟩,
       ⟨200, 6000900, 201, 202, .raises "cancelled", 203⟩] :
        List IterObs).map (fun o => toolCallId o.tId)).Nodup := by
    decide
  exact ⟨hids, (claim_C1_call_result_pairing hexEncode initExecCfg
    defaultOrchConfig 0
    [⟨"web_search", [("query", JVal.s "a")]⟩,
     ⟨"file", [("operation", JVal.s "read")]⟩]
    [⟨100, 5000500, 101, 102, .runs (fun _ => .ok ⟨true, 1000, "r1"⟩), 103⟩,
     ⟨200, 6000900, 201, 202, .raises "cancelled", 203⟩]
    0 initExecState hids).1⟩

set_option maxRecDepth 8000 in
/-- C1 counterexample: `tool_call_id = f"tool_{int(time.time() * 1000)}"`, so
two tool calls whose id readings fall in the same clock millisecond (here
5000500 μs and 5000900 μs, both in millisecond 5000) get the identical id
`"tool_5000"`: the ids are not unique within the turn, and two distinct
`ToolResult` events carry that one id — refuting the claim as stated. -/
theorem claim_C1_counterexample :
    ¬ (toolCallIds
      (executeToolsLoop hexEncode initExecCfg defaultOrchConfig 0
        [⟨"web_search", [("query", JVal.s "a")]⟩,
         ⟨"file", [("operation", JVal.s "read")]⟩]
        [⟨100, 5000500, 101, 102, .runs (fun _ => .ok ⟨true, 1000, "r1"⟩), 103⟩,
         ⟨200, 5000900, 201, 202, .raises "cancelled", 203⟩]
        0 initExecState).1).Nodup ∧
    (executeToolsLoop hexEncode initExecCfg defaultOrchConfig 0
        [⟨"web_search", [("query", JVal.s "a")]⟩,
         ⟨"file", [("operation", JVal.s "read")]⟩]
        [⟨100, 5000500, 101, 102, .runs (fun _ => .ok ⟨true, 1000, "r1"⟩), 103⟩,
         ⟨200, 5000900, 201, 202, .raises "cancelled", 203⟩]
        0 initExecState).1.countP
      (fun e => match e with
        | .toolResult id _ _ _ _ _ => id == "tool_5000"
        | _ => false) = 2 := by
  decide

lemma phaseLoop_cons_no_trip (digest : String → String) (ecfg : ExecCfg)
    (ocfg : OrchConfig) (obs : TurnObs) (turn_start : Nat) (p : Phase)
    (ps : List Phase) (st : ExecState)
    (h : ¬ turn_start + ocfg.max_execution_time < (phaseTimes obs p).tCheck) :
    phaseLoop digest ecfg ocfg obs turn_start (p :: ps) st =
      ((runPhase digest ecfg ocfg obs st p).1 ++
        (phaseLoop digest ecfg ocfg obs turn_start ps
          (runPhase digest ecfg ocfg obs st p).2).1,
       (phaseLoop digest ecfg ocfg obs turn_start ps
          (runPhase digest ecfg ocfg obs st p).2).2) := by
  simp [phaseLoop, h]

lemma phaseLoop_cons_trip (digest : String → String) (ecfg : ExecCfg)
    (ocfg : OrchConfig) (obs : TurnObs) (turn_start : Nat) (p : Phase)
    (ps : List Phase) (st : ExecState)
    (h : turn_start + ocfg.max_execution_time < (phaseTimes obs p).tCheck) :
    phaseLoop digest ecfg ocfg obs turn_start (p :: ps) st =
      ((runPhase digest ecfg ocfg obs st p).1 ++
        [Event.error "Execution timeout reached" (phaseTimes obs p).tCheckErr],
       (runPhase digest ecfg ocfg obs st p).2) := by
  simp [phaseLoop, h]

lemma runPhase_plan_eq (digest : String → String) (ecfg : ExecCfg)
    (ocfg : OrchConfig) (obs : TurnObs) (st : ExecState) (rp : String)
    (h : obs.planLLM = .ok rp) :
    runPhase digest ecfg ocfg obs st .plan =
      ([Event.phaseStart .plan obs.planT.tStart,
        Event.text ("📋 **Planning Phase**\n\n" ++ rp) obs.planT.tBody,
        Event.phaseEnd .plan obs.planT.tEnd], st) := by
  simp [runPhase, h, phaseTimes]

lemma runPhase_analyze_eq (digest : String → String) (ecfg : ExecCfg)
    (ocfg : OrchConfig) (obs : TurnObs) (st : ExecState) (ra : String)
    (h : obs.analyzeLLM = .ok ra) :
    runPhase digest ecfg ocfg obs st .analyze =
      ([Event.phaseStart .analyze obs.analyzeT.tStart,
        Event.text ("🔍 **Analysis Phase**\n\n" ++ ra) obs.analyzeT.tBody,
        Event.phaseEnd .analyze obs.analyzeT.tEnd], st) := by
  simp [runPhase, h, phaseTimes]

lemma runPhase_deliver_eq (digest : String → String) (ecfg : ExecCfg)
    (ocfg : OrchConfig) (obs : TurnObs) (st : ExecState) (rd : String)
    (h : obs.deliverLLM = .ok rd) :
    runPhase digest ecfg ocfg obs st .deliver =
      ([Event.phaseStart .deliver obs.deliverT.tStart,
        Event.text ("📦 **Delivery Phase**\n\n" ++ rd) obs.deliverT.tBody,
        Event.phaseEnd .deliver obs.deliverT.tEnd], st) := by
  simp [runPhase, h, phaseTimes]

lemma runPhase_execute_eq (digest : String → String) (ecfg : ExecCfg)
    (ocfg : OrchConfig) (obs : TurnObs) (st : ExecState)
    (calls : List CallData) (h : obs.execChat = .ok calls) :
    runPhase digest ecfg ocfg obs st .execute =
      (Event.phaseStart .execute obs.executeT.tStart ::
        (executeToolsLoop digest ecfg ocfg obs.execStart calls obs.execIters
          0 st).1 ++
        [Event.phaseEnd .execute obs.executeT.tEnd],
       (executeToolsLoop digest ecfg ocfg obs.execStart calls obs.execIters
          0 st).2) := by
  simp [runPhase, executeToolsBody, h, phaseTimes]

lemma executeToolsLoop_countP_eq_zero (f : Event → Bool)
    (hcall : ∀ name args id ts, f (Event.toolCall name args id ts) = false)
    (hres : ∀ id name s r c ts, f (Event.toolResult id name s r c ts) = false)
    (digest : String → String) (ecfg : ExecCfg) (ocfg : OrchConfig)
    (start_time : Nat) :
    ∀ (calls : List CallData) (iters : List IterObs) (hops : Nat)
      (st : ExecState),
      (executeToolsLoop digest ecfg ocfg start_time calls iters hops st).1.countP
        f = 0 := by
  intro calls
  induction calls with
  | nil => intro iters hops st; simp [executeToolsLoop]
  | cons c cs ih =>
    intro iters hops st
    match iters with
    | [] => simp [executeToolsLoop]
    | o :: os =>
      by_cases h₁ : ocfg.max_tool_hops ≤ hops
      · simp [executeToolsLoop, h₁]
      · by_cases h₂ : start_time + ocfg.max_execution_time < o.tCheck
        · simp [executeToolsLoop, h₁, h₂]
        · rcases hb : o.behavior with backend | msg <;>
            · simp only [executeToolsLoop, h₁, h₂, if_false, if_neg,
                not_false_iff, hb]
              simp [List.countP_cons, List.countP_append, hcall, hres,
                ih os (hops + 1) _]

lemma executeToolsLoop_toolCall_count (digest : String → String)
    (ecfg : ExecCfg) (ocfg : OrchConfig) (start_time : Nat) :
    ∀ (calls : List CallData) (iters : List IterObs) (hops : Nat)
      (st : ExecState),
      (∀ o ∈ iters, ¬ start_time + ocfg.max_execution_time < o.tCheck) →
      calls.length ≤ iters.length →
      (executeToolsLoop digest ecfg ocfg start_time calls iters hops st).1.countP
        Event.isToolCall =
        min (ocfg.max_tool_hops - hops) calls.length := by
  intro calls
  induction calls with
  | nil => intro iters hops st _ _; simp [executeToolsLoop]
  | cons c cs ih =>
    intro iters hops st hchk hlen
    match iters with
    | [] => simp at hlen
    | o :: os =>
      by_cases h₁ : ocfg.max_tool_hops ≤ hops
      · have : ocfg.max_tool_hops - hops = 0 := by omega
        simp [executeToolsLoop, h₁, this]
      · have h₂ : ¬ start_time + ocfg.max_execution_time < o.tCheck :=
          hchk o (List.mem_cons_self o os)
        have hchk' : ∀ o' ∈ os, ¬ start_time + ocfg.max_execution_time < o'.tCheck :=
          fun o' ho' => hchk o' (List.mem_cons_of_mem o ho')
        have hlen' : cs.length ≤ os.length := by
          simpa using hlen
        rcases hb : o.behavior with backend | msg <;>
          · simp only [executeToolsLoop, h₁, h₂, if_false, if_neg,
              not_false_iff, hb]
            simp only [List.countP_cons, List.countP_append, List.length_cons]
            rw [ih os (hops + 1) _ hchk' hlen']
            simp [Event.isToolCall]
            omega

/-- The phase loop when no budget check trips: phases simply run in
sequence, threading the executor state. -/
def phaseSeq (digest : String → String) (ecfg : ExecCfg) (ocfg : OrchConfig)
    (obs : TurnObs) : List Phase → ExecState → List Event × ExecState
  | [], st => ([], st)
  | p :: ps, st =>
    let r := runPhase digest ecfg ocfg obs st p
    let rest := phaseSeq digest ecfg ocfg obs ps r.2
    (r.1 ++ rest.1, rest.2)

lemma phaseLoop_eq_phaseSeq (digest : String → String) (ecfg : ExecCfg)
    (ocfg : OrchConfig) (obs : TurnObs) (turn_start : Nat) :
    ∀ (ps : List Phase) (st : ExecState),
      (∀ p ∈ ps, ¬ turn_start + ocfg.max_execution_time <
        (phaseTimes obs p).tCheck) →
      phaseLoop digest ecfg ocfg obs turn_start ps st =
        phaseSeq digest ecfg ocfg obs ps st := by
  intro ps
  induction ps with
  | nil => intro st _; rfl
  | cons p ps ih =>
    intro st h
    have hp : ¬ turn_start + ocfg.max_execution_time <
        (phaseTimes obs p).tCheck := h p (List.mem_cons_self p ps)
    have hps : ∀ q ∈ ps, ¬ turn_start + ocfg.max_execution_time <
        (phaseTimes obs q).tCheck := fun q hq => h q (List.mem_cons_of_mem p hq)
    simp [phaseLoop, phaseSeq, hp, ih _ hps]

/-- C8: on the agentic path, when the model proposes at least
`max_tool_hops` tool calls and no wall-clock check trips, the hop counter
caps the `ToolCall` events at exactly `max_tool_hops` — none beyond the
limit is emitted — and the turn still reaches the delivery phase's terminal
`Text` event. -/
theorem claim_C8_hop_cap_and_delivery (digest : String → String)
    (ecfg : ExecCfg) (ocfg : OrchConfig) (message : String) (st : ExecState)
    (turn_start : Nat) (instantLLM : Except String String) (tInstant : Nat)
    (obs : TurnObs) (rp ra rd : String) (calls : List CallData)
    (htriv : is_trivial_message message = false)
    (hplan : obs.planLLM = .ok rp) (hana : obs.analyzeLLM = .ok ra)
    (hdel : obs.deliverLLM = .ok rd) (hchat : obs.execChat = .ok calls)
    (hcap : ocfg.max_tool_hops ≤ calls.length)
    (hiters : calls.length ≤ obs.execIters.length)
    (hinner : ∀ o ∈ obs.execIters,
      ¬ obs.execStart + ocfg.max_execution_time < o.tCheck)
    (houter : ∀ p : Phase,
      ¬ turn_start + ocfg.max_execution_time < (phaseTimes obs p).tCheck) :
    (process_message digest ecfg ocfg message st turn_start instantLLM
      tInstant obs).1.countP Event.isToolCall = ocfg.max_tool_hops ∧
    Event.text ("📦 **Delivery Phase**\n\n" ++ rd) obs.deliverT.tBody ∈
      (process_message digest ecfg ocfg message st turn_start instantLLM
        tInstant obs).1 := by
  have hnt : ∀ p ∈ agentPhases,
      ¬ turn_start + ocfg.max_execution_time < (phaseTimes obs p).tCheck :=
    fun p _ => houter p
  have hev : (process_message digest ecfg ocfg message st turn_start
      instantLLM tInstant obs).1 =
      (phaseSeq digest ecfg ocfg obs agentPhases st).1 := by
    simp [process_message, htriv,
      phaseLoop_eq_phaseSeq digest ecfg ocfg obs turn_start agentPhases st hnt]
  rw [hev]
  simp only [agentPhases, phaseSeq]
  rw [runPhase_plan_eq _ _ _ _ _ _ hplan, runPhase_analyze_eq _ _ _ _ _ _ hana,
    runPhase_execute_eq _ _ _ _ _ _ hchat, runPhase_deliver_eq _ _ _ _ _ _ hdel]
  have hcount : ∀ s : ExecState,
      (executeToolsLoop digest ecfg ocfg obs.execStart calls obs.execIters
        0 s).1.countP Event.isToolCall =
        min (ocfg.max_tool_hops - 0) calls.length := fun s =>
    executeToolsLoop_toolCall_count digest ecfg ocfg obs.execStart calls
      obs.execIters 0 s hinner hiters
  constructor
  · simp [List.countP_append, List.countP_cons, Event.isToolCall, hcount]
    omega
  · simp

lemma executeToolsLoop_isError_count (digest : String → String)
    (ecfg : ExecCfg) (ocfg : OrchConfig) (start_time : Nat)
    (calls : List CallData) (iters : List IterObs) (hops : Nat)
    (st : ExecState) :
    (executeToolsLoop digest ecfg ocfg start_time calls iters hops st).1.countP
      Event.isError = 0 :=
  executeToolsLoop_countP_eq_zero Event.isError
    (fun _ _ _ _ => rfl) (fun _ _ _ _ _ _ => rfl)
    digest ecfg ocfg start_time calls iters hops st

/-- C7: on the agentic path (with the phase-level model calls themselves
succeeding), once some between-phase wall-clock check observes that the
elapsed time exceeds `max_execution_time`, the stream ends with exactly one
`Error` event — the `"Execution timeout reached"` event — and nothing
follows it: the turn stops without completing the remaining phases. -/
theorem claim_C7_timeout_terminal_error (digest : String → String)
    (ecfg : ExecCfg) (ocfg : OrchConfig) (message : String) (st : ExecState)
    (turn_start : Nat) (instantLLM : Except String String) (tInstant : Nat)
    (obs : TurnObs) (rp ra rd : String) (calls : List CallData)
    (htriv : is_trivial_message message = false)
    (hplan : obs.planLLM = .ok rp) (hana : obs.analyzeLLM = .ok ra)
    (hdel : obs.deliverLLM = .ok rd) (hchat : obs.execChat = .ok calls)
    (htrip : turn_start + ocfg.max_execution_time < obs.planT.tCheck ∨
      turn_start + ocfg.max_execution_time < obs.analyzeT.tCheck ∨
      turn_start + ocfg.max_execution_time < obs.executeT.tCheck ∨
      turn_start + ocfg.max_execution_time < obs.deliverT.tCheck) :
    ∃ (pre : List Event) (t : Nat),
      (process_message digest ecfg ocfg message st turn_start instantLLM
        tInstant obs).1 =
        pre ++ [Event.error "Execution timeout reached" t] ∧
      (process_message digest ecfg ocfg message st turn_start instantLLM
        tInstant obs).1.countP Event.isError = 1 := by
  have hev : (process_message digest ecfg ocfg message st turn_start
      instantLLM tInstant obs).1 =
      (phaseLoop digest ecfg ocfg obs turn_start agentPhases st).1 := by
    simp [process_message, htriv]
  have hplanL := runPhase_plan_eq digest ecfg ocfg obs st rp hplan
  by_cases t1 : turn_start + ocfg.max_execution_time < obs.planT.tCheck
  · refine ⟨(runPhase digest ecfg ocfg obs st .plan).1, obs.planT.tCheckErr, ?_, ?_⟩ <;>
      · rw [hev, show agentPhases =
            Phase.plan :: [Phase.analyze, Phase.execute, Phase.deliver] from rfl,
          phaseLoop_cons_trip digest ecfg ocfg obs turn_start Phase.plan _ _ t1]
        simp [hplanL, List.countP_append, List.countP_cons, Event.isError,
          phaseTimes]
  · rw [hev, show agentPhases =
        Phase.plan :: [Phase.analyze, Phase.execute, Phase.deliver] from rfl,
      phaseLoop_cons_no_trip digest ecfg ocfg obs turn_start Phase.plan _ _ t1, hplanL]
    have hanaL := runPhase_analyze_eq digest ecfg ocfg obs st ra hana
    by_cases t2 : turn_start + ocfg.max_execution_time < obs.analyzeT.tCheck
    · refine ⟨(runPhase digest ecfg ocfg obs st .plan).1 ++
        (runPhase digest ecfg ocfg obs st .analyze).1,
        obs.analyzeT.tCheckErr, ?_, ?_⟩ <;>
        · rw [show ([Phase.analyze, Phase.execute, Phase.deliver] : List Phase) =
              Phase.analyze :: [Phase.execute, Phase.deliver] from rfl,
            phaseLoop_cons_trip digest ecfg ocfg obs turn_start Phase.analyze _ _ t2]
          simp [hplanL, hanaL, List.countP_append, List.countP_cons,
            Event.isError, phaseTimes]
    · rw [show ([Phase.analyze, Phase.execute, Phase.deliver] : List Phase) =
          Phase.analyze :: [Phase.execute, Phase.deliver] from rfl,
        phaseLoop_cons_no_trip digest ecfg ocfg obs turn_start Phase.analyze _ _ t2, hanaL]
      have hexeL := runPhase_execute_eq digest ecfg ocfg obs st calls hchat
      by_cases t3 : turn_start + ocfg.max_execution_time < obs.executeT.tCheck
      · refine ⟨(runPhase digest ecfg ocfg obs st .plan).1 ++
          ((runPhase digest ecfg ocfg obs st .analyze).1 ++
            (runPhase digest ecfg ocfg obs st .execute).1),
          obs.executeT.tCheckErr, ?_, ?_⟩ <;>
          · rw [show ([Phase.execute, Phase.deliver] : List Phase) =
                Phase.execute :: [Phase.deliver] from rfl,
              phaseLoop_cons_trip digest ecfg ocfg obs turn_start Phase.execute _ _ t3]
            simp [hplanL, hanaL, hexeL, List.countP_append, List.countP_cons,
              Event.isError, phaseTimes, executeToolsLoop_isError_count]
      · rw [show ([Phase.execute, Phase.deliver] : List Phase) =
            Phase.execute :: [Phase.deliver] from rfl,
          phaseLoop_cons_no_trip digest ecfg ocfg obs turn_start Phase.execute _ _ t3, hexeL]
        have t4 : turn_start + ocfg.max_execution_time < obs.deliverT.tCheck := by
          rcases htrip with h | h | h | h <;> first | exact h | omega
        have hdelL := runPhase_deliver_eq digest ecfg ocfg obs
          (executeToolsLoop digest ecfg ocfg obs.execStart calls obs.execIters
            0 st).2 rd hdel
        refine ⟨(runPhase digest ecfg ocfg obs st .plan).1 ++
          ((runPhase digest ecfg ocfg obs st .analyze).1 ++
            ((runPhase digest ecfg ocfg obs st .execute).1 ++
              (runPhase digest ecfg ocfg obs
                (executeToolsLoop digest ecfg ocfg obs.execStart calls
                  obs.execIters 0 st).2 .deliver).1)),
          obs.deliverT.tCheckErr, ?_, ?_⟩ <;>
          · rw [show ([Phase.deliver] : List Phase) =
                Phase.deliver :: [] from rfl,
              phaseLoop_cons_trip digest ecfg ocfg obs turn_start Phase.deliver _ _ t4]
            simp [hplanL, hanaL, hexeL, hdelL, List.countP_append,
              List.countP_cons, Event.isError, phaseTimes,
              executeToolsLoop_isError_count]

/-- Concrete turn observations for the C8 witness: the model proposes four
tool calls against the default cap of three; every clock reading stays well
inside the 12 s budget. -/
def obsC8 : TurnObs :=
  { planT := ⟨10, 11, 12, 13, 14, 15⟩, planLLM := .ok "plan text"
    analyzeT := ⟨20, 21, 22, 23, 24, 25⟩, analyzeLLM := .ok "analysis"
    executeT := ⟨30, 31, 32, 33, 34, 35⟩
    execChat := .ok
      [⟨"web_search", [("query", JVal.s "gold price")]⟩,
       ⟨"web_search", [("query", JVal.s "gold")]⟩,
       ⟨"file", [("operation", JVal.s "write"), ("path", JVal.s "gold.txt")]⟩,
       ⟨"file", [("operation", JVal.s "read"), ("path", JVal.s "gold.txt")]⟩]
    execStart := 40
    execIters :=
      [⟨41, 42000, 43, 44, .runs (fun _ => .ok ⟨true, 10, "r1"⟩), 45⟩,
       ⟨51, 52000, 53, 54, .runs (fun _ => .ok ⟨true, 10, "r2"⟩), 55⟩,
       ⟨61, 62000, 63, 64, .runs (fun _ => .ok ⟨true, 10, "r3"⟩), 65⟩,
       ⟨71, 72000, 73, 74, .runs (fun _ => .ok ⟨true, 10, "r4"⟩), 75⟩]
    deliverT := ⟨50, 51, 52, 53, 54, 55⟩, deliverLLM := .ok "final answer" }

/-- Witness for C8: four proposed calls, cap three — exactly three
`ToolCall` events are emitted and the delivery `Text` event still appears. -/
theorem claim_C8_hop_cap_and_delivery_witness :
    is_trivial_message
      "Research the current price of gold and save it to gold.txt" = false ∧
    (process_message hexEncode initExecCfg defaultOrchConfig
      "Research the current price of gold and save it to gold.txt"
      initExecState 0 (.ok "") 0 obsC8).1.countP Event.isToolCall = 3 ∧
    Event.text ("📦 **Delivery Phase**\n\n" ++ "final answer") 51 ∈
      (process_message hexEncode initExecCfg defaultOrchConfig
        "Research the current price of gold and save it to gold.txt"
        initExecState 0 (.ok "") 0 obsC8).1 := by
  have h := claim_C8_hop_cap_and_delivery hexEncode initExecCfg
    defaultOrchConfig
    "Research the current price of gold and save it to gold.txt"
    initExecState 0 (.ok "") 0 obsC8 "plan text" "analysis" "final answer"
    [⟨"web_search", [("query", JVal.s "gold price")]⟩,
     ⟨"web_search", [("query", JVal.s "gold")]⟩,
     ⟨"file", [("operation", JVal.s "write"), ("path", JVal.s "gold.txt")]⟩,
     ⟨"file", [("operation", JVal.s "read"), ("path", JVal.s "gold.txt")]⟩]
    (by decide) rfl rfl rfl rfl (by decide) (by decide)
    (by intro o ho; fin_cases ho <;> decide)
    (by intro p; cases p <;> decide)
  exact ⟨by decide, h.1, h.2⟩

/-- Concrete turn observations for the C7 witness: all phases' model calls
succeed, but the check after the deliver phase reads 20 s against the 12 s
budget. -/
def obsC7 : TurnObs :=
  { planT := ⟨10, 11, 12, 13, 14, 15⟩, planLLM := .ok "p"
    analyzeT := ⟨20, 21, 22, 23, 24, 25⟩, analyzeLLM := .ok "a"
    executeT := ⟨30, 31, 32, 33, 34, 35⟩
    execChat := .ok [], execStart := 40, execIters := []
    deliverT := ⟨50, 51, 52, 53, 20000000, 20000005⟩, deliverLLM := .ok "d" }

/-- Witness for C7: the post-deliver check trips; the stream carries exactly
one `Error` event and it terminates the stream. -/
theorem claim_C7_timeout_terminal_error_witness :
    is_trivial_message
      "Compare the three cloud providers for our workload please today" = false ∧
    (process_message hexEncode initExecCfg defaultOrchConfig
      "Compare the three cloud providers for our workload please today"
      initExecState 0 (.ok "") 0 obsC7).1.countP Event.isError = 1 := by
  have h := claim_C7_timeout_terminal_error hexEncode initExecCfg
    defaultOrchConfig
    "Compare the three cloud providers for our workload please today"
    initExecState 0 (.ok "") 0 obsC7 "p" "a" "d" []
    (by decide) rfl rfl rfl rfl
    (Or.inr (Or.inr (Or.inr (by decide))))
  obtain ⟨pre, t, hpre, hcount⟩ := h
  exact ⟨by decide, hcount⟩
